import Mathlib

/-!
Verification of the Miuchiz-Reborn Bots character protocol core.

Shallow embedding of:
* the wire framing helpers in `crates/libs/character/src/client.rs`
  (`write_frame` / `read_frame`) and `crates/bins/character_server/src/main.rs`;
* the protocol types in `crates/libs/character/src/protocol.rs`
  (`StatBar`, `Request`, `Response`, `Notification`, `ServerMessage`);
* the store access layer in `crates/bins/character_server/src/database.rs`
  (`MiuchizDatabase::{init_player_if_not_exists, get_stats, set_stats}`);
* the dispatcher `process_request` in `crates/bins/character_server/src/main.rs`;
* the client side `CharacterClient::check_events` in
  `crates/libs/character/src/client.rs`.

Bytes are modelled as naturals below 256; u32 values as naturals, with an
explicit `% 2 ^ 32` where the Rust code can wrap.  f32 values are modelled
by their exact rational value (every finite IEEE-754 binary32 number is a
rational); where the modelled code performs binary32 arithmetic that can
round, the rounding is modelled explicitly (`f32_round_nat`).
-/

-- =====================================================================
-- Wire framing (client.rs `write_frame` / `read_frame`;
-- main.rs `write_frame` is the same format written with tokio)
-- =====================================================================

/-- Big-endian four-byte encoding of a u32 (`u32::to_be_bytes`). -/
def u32_to_be_bytes (n : Nat) : List Nat :=
  [n / 2 ^ 24 % 256, n / 2 ^ 16 % 256, n / 2 ^ 8 % 256, n % 256]

/-- Reassemble a u32 from four big-endian bytes (`u32::from_be_bytes`). -/
def u32_from_be_bytes (b0 b1 b2 b3 : Nat) : Nat :=
  b0 * 2 ^ 24 + b1 * 2 ^ 16 + b2 * 2 ^ 8 + b3

/-- client.rs `write_frame`: writes `payload.len() as u32` big-endian, then the
payload.  The `as u32` cast truncates, hence the `% 2 ^ 32`. -/
def write_frame (payload : List Nat) : List Nat :=
  u32_to_be_bytes (payload.length % 2 ^ 32) ++ payload

/-- client.rs `read_frame`: reads a 4-byte big-endian length prefix, then
exactly that many payload bytes.  The input list is the byte stream available
on the connection; `none` models `read_exact` failing (EOF before enough
bytes arrived).  Returns the payload and the unconsumed remainder. -/
def read_frame (input : List Nat) : Option (List Nat × List Nat) :=
  match input with
  | b0 :: b1 :: b2 :: b3 :: rest =>
    let len := u32_from_be_bytes b0 b1 b2 b3
    if rest.length < len then none
    else some (rest.take len, rest.drop len)
  | _ => none

-- =====================================================================
-- protocol.rs
-- =====================================================================

/-- protocol.rs `StatBar`.  The source comment documents the field as
"Internally range 0..=0x7FFFFFFF". -/
structure StatBar where
  value_u32 : Nat
deriving DecidableEq, Repr

/-- protocol.rs `StatBar::from_u32`: stores the given u32 unmodified. -/
def StatBar.from_u32 (value_u32 : Nat) : StatBar :=
  ⟨value_u32⟩

/-- Rust `f32::clamp(x, 0.0, 1.0)` on the exact rational value of a finite
float: comparison and selection are exact in binary32. -/
def clamp01 (q : ℚ) : ℚ :=
  min (max q 0) 1

/-- protocol.rs `StatBar::from_f32`:
`(value_f32.clamp(0.0, 1.0) * 0x7FFFFFFF as f32) as u32`.

The constant cast `0x7FFFFFFF as f32` rounds 2 ^ 31 - 1 to the nearest
binary32 value, which is 2 ^ 31 (a 24-bit mantissa cannot hold 2 ^ 31 - 1),
so the scale factor actually multiplied is exactly 2 ^ 31.  Multiplying any
finite binary32 value by the power of two 2 ^ 31 is exact (no overflow is
possible for inputs clamped into [0, 1]), and the `as u32` cast truncates
toward zero, saturating at the ends; for a clamped input the product lies in
[0, 2 ^ 31] so the cast is plain truncation.  The model therefore computes
the exact rational product and takes its floor. -/
def StatBar.from_f32 (value_f32 : ℚ) : StatBar :=
  ⟨(⌊clamp01 value_f32 * 2 ^ 31⌋).toNat⟩

/-- Round-to-nearest, ties-to-even of a natural to 24 significant binary
digits: the exact value of the Rust `u32 as f32` conversion for any u32.
For n < 2 ^ 24 the conversion is exact and this is the identity. -/
def f32_round_nat (n : Nat) : Nat :=
  let u := 2 ^ (Nat.size n - 24)
  let q := n / u
  let r := n % u
  if 2 * r < u then q * u
  else if u < 2 * r then (q + 1) * u
  else if q % 2 = 0 then q * u else (q + 1) * u

/-- protocol.rs `StatBar::to_f32`:
`(self.value_u32 as f32 / 0x7FFFFFFF as f32).clamp(0.0, 1.0)`.

As in `from_f32` the divisor is exactly 2 ^ 31.  The `u32 as f32` conversion
rounds the stored integer to 24 significant bits (`f32_round_nat`); the
subsequent division by the power of two 2 ^ 31 is exact. -/
def StatBar.to_f32 (s : StatBar) : ℚ :=
  clamp01 ((f32_round_nat s.value_u32 : ℚ) / 2 ^ 31)

/-- protocol.rs `StatBar::to_u32`. -/
def StatBar.to_u32 (s : StatBar) : Nat :=
  s.value_u32

/-- protocol.rs `Request`.  `UserId` is a u32; stat-setter payloads are f32,
modelled as exact rationals. -/
inductive Request where
  | GetCreditz (id : Nat)
  | SetCreditz (id : Nat) (value : Nat)
  | AddCreditz (id : Nat) (amount : Nat)
  | SubtractCreditz (id : Nat) (amount : Nat)
  | GetHappiness (id : Nat)
  | SetHappiness (id : Nat) (value : ℚ)
  | GetBoredom (id : Nat)
  | SetBoredom (id : Nat) (value : ℚ)
  | GetHunger (id : Nat)
  | SetHunger (id : Nat) (value : ℚ)
deriving DecidableEq, Repr

/-- protocol.rs `Response`. -/
inductive Response where
  | Creditz (value : Nat)
  | Happiness (value : StatBar)
  | Boredom (value : StatBar)
  | Hunger (value : StatBar)
  | Success
  | Error (message : String)
deriving DecidableEq, Repr

/-- protocol.rs `Notification`. -/
inductive Notification where
  | CreditzChanged (user_id : Nat) (new_value : Nat)
  | HappinessChanged (user_id : Nat) (new_value : StatBar)
  | BoredomChanged (user_id : Nat) (new_value : StatBar)
  | HungerChanged (user_id : Nat) (new_value : StatBar)
deriving DecidableEq, Repr

/-- protocol.rs `ServerMessage`. -/
inductive ServerMessage where
  | Response (r : Response)
  | Notification (n : Notification)
deriving DecidableEq, Repr

-- =====================================================================
-- database.rs (character_server)
-- =====================================================================

/-- One row of the `miuchiz_stats` table: the four integer columns besides
the `citizen_id` primary key (database.rs `create_tables`). -/
structure StatsRow where
  creditz : Nat
  happiness : Nat
  hunger : Nat
  boredom : Nat
deriving DecidableEq, Repr

/-- A freshly inserted row: every stat column has SQL `DEFAULT 0`. -/
def zeroRow : StatsRow :=
  ⟨0, 0, 0, 0⟩

/-- The `miuchiz_stats` table, keyed by `citizen_id`.  The primary key
guarantees at most one row per id, so an association list with distinct
keys models it; the SQL statements below are modelled on that list. -/
abbrev Store := List (Nat × StatsRow)

/-- Row lookup by primary key (the `SELECT ... WHERE citizen_id = ?`). -/
def findRow : Store → Nat → Option StatsRow
  | [], _ => none
  | (k, r) :: rest, id => if k = id then some r else findRow rest id

/-- Row replacement by primary key (the `UPDATE ... WHERE citizen_id = ?`).
Updating an absent key touches zero rows and is still an SQL success. -/
def updateRow : Store → Nat → StatsRow → Store
  | [], _, _ => []
  | (k, r) :: rest, id, row =>
    if k = id then (k, row) :: rest else (k, r) :: updateRow rest id row

/-- aw_db `DatabaseResult`: the two variants matched throughout the repo. -/
inductive DatabaseResult (α : Type) where
  | Ok (value : α)
  | DatabaseError
deriving DecidableEq, Repr

/-- database.rs `MiuchizDBCharacter`. -/
structure MiuchizDBCharacter where
  citizen_id : Nat
  creditz : Nat
  happiness : StatBar
  hunger : StatBar
  boredom : StatBar
deriving DecidableEq, Repr

/-- database.rs `u32::try_from(column_i64).unwrap_or(0)`: a column value
outside u32 range is read back as 0 (negative values cannot arise in the
Nat model). -/
def fit32 (v : Nat) : Nat :=
  if v < 2 ^ 32 then v else 0

/-- database.rs `MiuchizDatabase::init_player_if_not_exists`: executes
`INSERT INTO miuchiz_stats (citizen_id) VALUES (?)`.  The statement has no
`OR IGNORE` / `ON CONFLICT` clause, so when a row with that primary key
already exists the insert violates the primary-key constraint and the
backend reports an error (both SQLite and MySQL, the two aw_db backends,
fail a duplicate-key plain INSERT); a fresh id inserts a row of
`DEFAULT 0` columns. -/
def init_player_if_not_exists (s : Store) (citizen_id : Nat) : DatabaseResult Store :=
  match findRow s citizen_id with
  | some _ => DatabaseResult.DatabaseError
  | none => DatabaseResult.Ok (s ++ [(citizen_id, zeroRow)])

/-- Modelled from the spec: the aw_db statement executor is an external
collaborator (the `aw_db` crate is not part of this repository), and spec
section 4.2 fixes its contract for player initialisation as
`ensure_exists(UserId)`, an "idempotent upsert of a zero-valued record"
("upsert-if-absent before every operation").  This definition is that
contract: insert a zero row when absent, succeed and change nothing when
present.  Contrast `init_player_if_not_exists`, which models the raw SQL
actually issued by database.rs. -/
def ensure_exists (s : Store) (citizen_id : Nat) : DatabaseResult Store :=
  match findRow s citizen_id with
  | some _ => DatabaseResult.Ok s
  | none => DatabaseResult.Ok (s ++ [(citizen_id, zeroRow)])

/-- database.rs `MiuchizDatabase::get_stats`: selects the row for the id
(no row is a `DatabaseError`; the primary key makes the source's
`rows.len() > 1` guard unreachable) and rebuilds the character, converting
each stat column through `StatBar::from_u32` with the
`try_from(..).unwrap_or(0)` fit. -/
def get_stats (s : Store) (citizen_id : Nat) : DatabaseResult MiuchizDBCharacter :=
  match findRow s citizen_id with
  | none => DatabaseResult.DatabaseError
  | some row =>
    DatabaseResult.Ok
      { citizen_id := citizen_id
        creditz := fit32 row.creditz
        happiness := StatBar.from_u32 (fit32 row.happiness)
        hunger := StatBar.from_u32 (fit32 row.hunger)
        boredom := StatBar.from_u32 (fit32 row.boredom) }

/-- database.rs `MiuchizDatabase::set_stats`: updates the whole row from the
character (stat bars written back through `StatBar::to_u32`).  An UPDATE
whose WHERE clause matches no row is still an SQL success. -/
def set_stats (s : Store) (citizen_id : Nat) (stats : MiuchizDBCharacter) : DatabaseResult Store :=
  DatabaseResult.Ok (updateRow s citizen_id
    { creditz := stats.creditz
      happiness := stats.happiness.to_u32
      hunger := stats.hunger.to_u32
      boredom := stats.boredom.to_u32 })

-- =====================================================================
-- main.rs `process_request` (character_server)
-- =====================================================================

/-- main.rs `process_request`, parameterised by the player-initialisation
step so that both the raw-SQL behaviour (`init_player_if_not_exists`) and
the spec's store contract (`ensure_exists`) can be examined; everything
else is a direct transliteration.  The Rust function mutates the shared
database and returns `(Response, Option<Notification>)`; the model threads
the store explicitly and returns it as the third component.

The `AddCreditz` arm performs `stats.creditz += amount` with no overflow
guard: compiled with overflow checks disabled (release profile) the u32
addition wraps, modelled by `% 2 ^ 32` (a debug build would panic
instead). -/
def process_request (init : Store → Nat → DatabaseResult Store)
    (request : Request) (s : Store) : Response × Option Notification × Store :=
  let user_id :=
    match request with
    | .GetCreditz id | .SetCreditz id _ | .AddCreditz id _ | .SubtractCreditz id _
    | .GetHappiness id | .SetHappiness id _ | .GetBoredom id | .SetBoredom id _
    | .GetHunger id | .SetHunger id _ => id
  match init s user_id with
  | .DatabaseError =>
    (.Error ("Database error: Could not initialize player."), none, s)
  | .Ok s =>
    match request with
    | .GetCreditz user_id =>
      match get_stats s user_id with
      | .Ok stats => (.Creditz stats.creditz, none, s)
      | .DatabaseError =>
        (.Error ("Database error: Failed to retrieve stats."), none, s)
    | .SetCreditz user_id value =>
      match get_stats s user_id with
      | .DatabaseError => (.Error ("DB Error"), none, s)
      | .Ok stats =>
        let stats := { stats with creditz := value }
        match set_stats s user_id stats with
        | .Ok s => (.Success, some (.CreditzChanged user_id value), s)
        | .DatabaseError => (.Error ("DB Error"), none, s)
    | .AddCreditz user_id amount =>
      match get_stats s user_id with
      | .DatabaseError => (.Error ("DB Error"), none, s)
      | .Ok stats =>
        let stats := { stats with creditz := (stats.creditz + amount) % 2 ^ 32 }
        let new_value := stats.creditz
        match set_stats s user_id stats with
        | .Ok s => (.Success, some (.CreditzChanged user_id new_value), s)
        | .DatabaseError => (.Error ("DB Error"), none, s)
    | .SubtractCreditz user_id amount =>
      match get_stats s user_id with
      | .DatabaseError => (.Error ("DB Error"), none, s)
      | .Ok stats =>
        if stats.creditz < amount then
          (.Error ("Insufficient funds"), none, s)
        else
          let stats := { stats with creditz := stats.creditz - amount }
          let new_value := stats.creditz
          match set_stats s user_id stats with
          | .Ok s => (.Success, some (.CreditzChanged user_id new_value), s)
          | .DatabaseError => (.Error ("DB Error"), none, s)
    | .GetHappiness user_id =>
      match get_stats s user_id with
      | .Ok stats => (.Happiness stats.happiness, none, s)
      | .DatabaseError => (.Error ("DB Error"), none, s)
    | .SetHappiness user_id value =>
      match get_stats s user_id with
      | .DatabaseError => (.Error ("DB Error"), none, s)
      | .Ok stats =>
        let stats := { stats with happiness := StatBar.from_f32 value }
        match set_stats s user_id stats with
        | .Ok s =>
          (.Success, some (.HappinessChanged user_id (StatBar.from_f32 value)), s)
        | .DatabaseError => (.Error ("DB Error"), none, s)
    | .GetHunger user_id =>
      match get_stats s user_id with
      | .Ok stats => (.Hunger stats.hunger, none, s)
      | .DatabaseError => (.Error ("DB Error"), none, s)
    | .SetHunger user_id value =>
      match get_stats s user_id with
      | .DatabaseError => (.Error ("DB Error"), none, s)
      | .Ok stats =>
        let stats := { stats with hunger := StatBar.from_f32 value }
        match set_stats s user_id stats with
        | .Ok s =>
          (.Success, some (.HungerChanged user_id (StatBar.from_f32 value)), s)
        | .DatabaseError => (.Error ("DB Error"), none, s)
    | .GetBoredom user_id =>
      match get_stats s user_id with
      | .Ok stats => (.Boredom stats.boredom, none, s)
      | .DatabaseError => (.Error ("DB Error"), none, s)
    | .SetBoredom user_id value =>
      match get_stats s user_id with
      | .DatabaseError => (.Error ("DB Error"), none, s)
      | .Ok stats =>
        let stats := { stats with boredom := StatBar.from_f32 value }
        match set_stats s user_id stats with
        | .Ok s =>
          (.Success, some (.BoredomChanged user_id (StatBar.from_f32 value)), s)
        | .DatabaseError => (.Error ("DB Error"), none, s)

/-- The four read-only request kinds: the `Get*` arms of main.rs. -/
def is_read_only : Request → Bool
  | .GetCreditz _ | .GetHappiness _ | .GetHunger _ | .GetBoredom _ => true
  | _ => false

-- =====================================================================
-- client.rs `CharacterClient::check_events`
-- =====================================================================

/-- Outcome of one `read_frame` + `bincode::deserialize` attempt inside the
`check_events` read loop, as seen by the client:
a well-formed frame carrying a `ServerMessage`, a frame whose payload fails
to deserialize, a timed-out read (`ErrorKind::WouldBlock`, expected when the
10 ms budget expires with no data), or any other I/O error. -/
inductive ReadEvent where
  | msg (m : ServerMessage)
  | deserErr
  | wouldBlock
  | ioErr
deriving DecidableEq, Repr

/-- The `CharacterError` variants `check_events` can produce. -/
inductive CheckError where
  | unexpectedPacket
  | bincode
deriving DecidableEq, Repr

/-- The client state `check_events` reads and writes: the notification FIFO
buffer filled incidentally by `request()`, the connection's current read
timeout (`None` is unbounded blocking), and the sequence of read outcomes
the connection will yield. -/
structure ClientState where
  buffer : List Notification
  readTimeout : Option Nat
  incoming : List ReadEvent
deriving DecidableEq, Repr

/-- The read loop of `check_events`, entered with the read timeout set to
`some 10` (milliseconds) and the drained buffer contents in `acc`.
Returns the call result together with the connection's read timeout at
return and the unread remainder of the stream.

* a `Notification` frame is appended and the loop continues;
* a `Response` frame restores the timeout, then returns
  `Err(CharacterError::UnexpectedPacket)`;
* a deserialization failure propagates through the `?` operator, which
  returns WITHOUT restoring the timeout (it stays `some 10`);
* a `WouldBlock` read error breaks the loop, after which the timeout is
  restored and the accumulated list returned (an exhausted event list is
  the same timeout expiry);
* any other I/O error restores the timeout, reconnects (the replacement
  stream is fresh: unbounded blocking, nothing readable yet) and returns
  `Ok(Vec::new())` — the accumulator is discarded. -/
def check_loop (acc : List Notification) :
    List ReadEvent → Except CheckError (List Notification) × Option Nat × List ReadEvent
  | [] => (Except.ok acc, none, [])
  | ReadEvent.msg (ServerMessage.Notification n) :: rest =>
    check_loop (acc ++ [n]) rest
  | ReadEvent.msg (ServerMessage.Response _) :: rest =>
    (Except.error CheckError.unexpectedPacket, none, rest)
  | ReadEvent.deserErr :: rest =>
    (Except.error CheckError.bincode, some 10, rest)
  | ReadEvent.wouldBlock :: rest => (Except.ok acc, none, rest)
  | ReadEvent.ioErr :: _ => (Except.ok [], none, [])

/-- client.rs `CharacterClient::check_events`: drains the buffer, sets a
10 ms read timeout, runs the read loop, and returns the result together
with the final client state. -/
def check_events (c : ClientState) : Except CheckError (List Notification) × ClientState :=
  let drained := c.buffer
  let out := check_loop drained c.incoming
  (out.1, { buffer := [], readTimeout := out.2.1, incoming := out.2.2 })

/-- Event list consisting of well-formed notification frames. -/
def notif_events (ns : List Notification) : List ReadEvent :=
  ns.map (fun n => ReadEvent.msg (ServerMessage.Notification n))

/-- A notification agrees with a store when the record it names exists
there and the field it reports carries exactly the notified value (stat
bars compared on the persisted integer, via `StatBar::to_u32`). -/
def notif_matches_store : Notification → Store → Prop
  | .CreditzChanged id v, s => ∃ row, findRow s id = some row ∧ row.creditz = v
  | .HappinessChanged id b, s => ∃ row, findRow s id = some row ∧ row.happiness = b.to_u32
  | .BoredomChanged id b, s => ∃ row, findRow s id = some row ∧ row.boredom = b.to_u32
  | .HungerChanged id b, s => ∃ row, findRow s id = some row ∧ row.hunger = b.to_u32

/-- Finite IEEE-754 binary32 values, seen as exact rationals: a 24-bit
signed significand times a power of two.  (The exponent range of real
binary32 is narrower; dropping that restriction only enlarges the set of
inputs quantified over.) -/
def IsF32 (q : ℚ) : Prop :=
  ∃ m e : ℤ, |m| < 2 ^ 24 ∧ q = m * (2 : ℚ) ^ e

-- =====================================================================
-- Helper lemmas
-- =====================================================================

lemma u32_be_roundtrip (n : Nat) (h : n < 2 ^ 32) :
    u32_from_be_bytes (n / 2 ^ 24 % 256) (n / 2 ^ 16 % 256) (n / 2 ^ 8 % 256) (n % 256) = n := by
  unfold u32_from_be_bytes
  omega

lemma f32_round_nat_id (m j : Nat) (hm : m < 2 ^ 24) :
    f32_round_nat (m * 2 ^ j) = m * 2 ^ j := by
  have hn : m * 2 ^ j < 2 ^ (24 + j) := by
    rw [pow_add]
    exact Nat.mul_lt_mul_of_lt_of_le hm (le_refl _) (Nat.pos_pow_of_pos j (by norm_num))
  have hsize : Nat.size (m * 2 ^ j) ≤ 24 + j := Nat.size_le.mpr hn
  have hdvd : 2 ^ (Nat.size (m * 2 ^ j) - 24) ∣ m * 2 ^ j :=
    Dvd.dvd.mul_left (pow_dvd_pow 2 (by omega)) m
  have hu : 0 < 2 ^ (Nat.size (m * 2 ^ j) - 24) := Nat.pos_pow_of_pos _ (by norm_num)
  unfold f32_round_nat
  simp only [Nat.mod_eq_zero_of_dvd hdvd]
  rw [if_pos (by omega)]
  exact Nat.div_mul_cancel hdvd

-- =====================================================================
-- C9: frame round trip
-- =====================================================================

/-- C9: for every payload whose byte length fits in a u32, `write_frame`
emits exactly the 4-byte big-endian encoding of the length followed by the
payload bytes, and `read_frame` applied to that byte sequence (followed by
any further stream content) returns the original payload. -/
theorem c9_frame_roundtrip (payload extra : List Nat) (h : payload.length < 2 ^ 32) :
    write_frame payload = u32_to_be_bytes payload.length ++ payload
      ∧ read_frame (write_frame payload ++ extra) = some (payload, extra) := by
  have hmod : payload.length % 2 ^ 32 = payload.length := Nat.mod_eq_of_lt h
  constructor
  · unfold write_frame
    rw [hmod]
  · unfold write_frame u32_to_be_bytes
    rw [hmod]
    simp only [read_frame, List.cons_append, List.append_assoc, List.nil_append]
    rw [u32_be_roundtrip payload.length h]
    have hlen : (payload ++ extra).length = payload.length + extra.length := List.length_append _ _
    rw [if_neg (by omega)]
    rw [List.take_left, List.drop_left]

/-- C9 witness: the round trip at a concrete three-byte payload. -/
theorem c9_frame_roundtrip_witness :
    ([7, 8, 9] : List Nat).length < 2 ^ 32
      ∧ (write_frame [7, 8, 9] = u32_to_be_bytes ([7, 8, 9] : List Nat).length ++ [7, 8, 9]
          ∧ read_frame (write_frame [7, 8, 9] ++ [1, 2]) = some ([7, 8, 9], [1, 2])) :=
  ⟨by decide, c9_frame_roundtrip [7, 8, 9] [1, 2] (by decide)⟩

-- =====================================================================
-- C1: initialisation of an already-existing record
-- =====================================================================

/-- C1: the claim fails on the code.  For a store already holding a record
for citizen 42, the raw SQL issued by `init_player_if_not_exists` (a plain
INSERT against the primary key) fails, so `process_request` answers every
request for that user with the "Could not initialize player." error and the
read/write logic is never reached — whereas under the spec's
`ensure_exists` contract the same request would succeed.  The existing
record is left unchanged in both cases. -/
theorem c1_init_existing_player_fails :
    init_player_if_not_exists [(42, ⟨5, 1, 2, 3⟩)] 42 = DatabaseResult.DatabaseError
      ∧ process_request init_player_if_not_exists (Request.GetCreditz 42) [(42, ⟨5, 1, 2, 3⟩)]
          = (Response.Error ("Database error: Could not initialize player."), none,
              [(42, ⟨5, 1, 2, 3⟩)])
      ∧ process_request ensure_exists (Request.GetCreditz 42) [(42, ⟨5, 1, 2, 3⟩)]
          = (Response.Creditz 5, none, [(42, ⟨5, 1, 2, 3⟩)]) := by
  refine ⟨rfl, rfl, ?_⟩
  rfl

-- =====================================================================
-- C2: SubtractCreditz with insufficient funds
-- =====================================================================

/-- C2: for every stored record with balance `c` and every amount `a > c`,
`process_request (SubtractCreditz id a)` returns
`Error "Insufficient funds"`, performs no store write (the store is
returned unchanged), and emits no notification.  The player-initialisation
step is taken per the spec's idempotent `ensure_exists` contract (see C1
for the raw-SQL discrepancy). -/
theorem c2_subtract_insufficient_funds (s : Store) (id : Nat) (r : StatsRow) (a : Nat)
    (hfind : findRow s id = some r) (hc : r.creditz < 2 ^ 32) (ha : r.creditz < a) :
    process_request ensure_exists (Request.SubtractCreditz id a) s
      = (Response.Error ("Insufficient funds"), none, s) := by
  have hfit : fit32 r.creditz = r.creditz := if_pos hc
  simp [process_request, ensure_exists, get_stats, hfind, hfit, ha]

/-- C2 witness: starting balance 5, `SubtractCreditz(42, 10)`. -/
theorem c2_subtract_insufficient_funds_witness :
    findRow [(42, ⟨5, 0, 0, 0⟩)] 42 = some ⟨5, 0, 0, 0⟩
      ∧ (5 : Nat) < 2 ^ 32 ∧ (5 : Nat) < 10
      ∧ process_request ensure_exists (Request.SubtractCreditz 42 10) [(42, ⟨5, 0, 0, 0⟩)]
          = (Response.Error ("Insufficient funds"), none, [(42, ⟨5, 0, 0, 0⟩)]) :=
  ⟨by decide, by decide, by decide,
    c2_subtract_insufficient_funds [(42, ⟨5, 0, 0, 0⟩)] 42 ⟨5, 0, 0, 0⟩ 10
      (by decide) (by decide) (by decide)⟩

-- =====================================================================
-- C3: AddCreditz overflow
-- =====================================================================

/-- C3: the claim fails on the code.  At the u32 maximum balance
4294967295, `AddCreditz(42, 1)` wraps the balance modulo 2 ^ 32 to 0,
persists the wrapped value, and returns `Success` together with a
`CreditzChanged` notification carrying 0: the overflow is silently wrapped
and stored as a success, not reported (the `stats.creditz += amount` in
main.rs has no overflow guard; only a build with overflow checks would
panic here instead). -/
theorem c3_add_creditz_overflow_wraps :
    process_request ensure_exists (Request.AddCreditz 42 1) [(42, ⟨2 ^ 32 - 1, 0, 0, 0⟩)]
      = (Response.Success, some (Notification.CreditzChanged 42 0), [(42, ⟨0, 0, 0, 0⟩)]) := by
  rfl

-- =====================================================================
-- C4: check_events ordering and the fate of drained notifications
-- =====================================================================

lemma check_events_def (c : ClientState) :
    check_events c
      = ((check_loop c.buffer c.incoming).1,
          ⟨[], (check_loop c.buffer c.incoming).2.1, (check_loop c.buffer c.incoming).2.2⟩) :=
  rfl

lemma check_loop_notifs (ns : List Notification) (acc : List Notification)
    (evs : List ReadEvent) :
    check_loop acc (notif_events ns ++ evs) = check_loop (acc ++ ns) evs := by
  induction ns generalizing acc with
  | nil => simp [notif_events]
  | cons n rest ih =>
    have h : notif_events (n :: rest) ++ evs
        = ReadEvent.msg (ServerMessage.Notification n) :: (notif_events rest ++ evs) := by
      simp [notif_events]
    rw [h]
    show check_loop (acc ++ [n]) (notif_events rest ++ evs) = _
    rw [ih]
    simp

/-- C4 counterexample: the claim fails on the code.  With one buffered
notification and a connection whose opportunistic read attempt hits an I/O
error, `check_events` returns `Ok([])`: the buffered notification that was
drained is lost even though the call reports success. -/
theorem c4_drained_lost_on_io_error :
    check_events ⟨[Notification.CreditzChanged 1 2], none, [ReadEvent.ioErr]⟩
      = (Except.ok [], ⟨[], none, []⟩) := by
  rfl

/-- C4 as amended: when every read in the opportunistic attempt yields a
well-formed notification frame until the short timeout expires (modelled by
`ReadEvent.wouldBlock` or by the stream having nothing further),
`check_events` returns the previously buffered notifications first, in FIFO
order, followed by the notifications read during the attempt; but when the
read attempt fails with an I/O error the drained buffered notifications are
discarded and the call returns an empty list. -/
theorem c4_check_events_order_and_loss (b ns : List Notification) (t : Option Nat)
    (rest : List ReadEvent) :
    check_events ⟨b, t, notif_events ns ++ ReadEvent.wouldBlock :: rest⟩
        = (Except.ok (b ++ ns), ⟨[], none, rest⟩)
      ∧ check_events ⟨b, t, notif_events ns⟩ = (Except.ok (b ++ ns), ⟨[], none, []⟩)
      ∧ check_events ⟨b, t, ReadEvent.ioErr :: rest⟩ = (Except.ok [], ⟨[], none, []⟩) := by
  refine ⟨?_, ?_, rfl⟩
  · rw [check_events_def]
    dsimp only
    rw [check_loop_notifs]
    rfl
  · rw [check_events_def]
    dsimp only
    rw [show notif_events ns = notif_events ns ++ ([] : List ReadEvent) by simp,
      check_loop_notifs]
    rfl

-- =====================================================================
-- C5: restoration of the unbounded read timeout
-- =====================================================================

/-- C5: the claim fails on the code.  On the frame-deserialization-failure
path the `?` operator propagates the bincode error without restoring the
read timeout: the connection is left in 10 ms timeout mode.  The other
three return paths (normal completion, protocol violation, I/O failure) do
restore unbounded blocking mode, shown here for contrast. -/
theorem c5_deser_failure_keeps_timeout :
    (check_events ⟨[], none, [ReadEvent.deserErr]⟩
        = (Except.error CheckError.bincode, ⟨[], some 10, []⟩))
      ∧ (check_events ⟨[], none, [ReadEvent.wouldBlock]⟩).2.readTimeout = none
      ∧ (check_events ⟨[], none,
            [ReadEvent.msg (ServerMessage.Response Response.Success)]⟩).2.readTimeout = none
      ∧ (check_events ⟨[], none, [ReadEvent.ioErr]⟩).2.readTimeout = none := by
  exact ⟨rfl, rfl, rfl, rfl⟩

-- =====================================================================
-- C6: the StatBar range invariant
-- =====================================================================

/-- C6 counterexample: the claim fails on the code.  `StatBar::from_u32`
stores its argument unmodified, so `from_u32(2 ^ 31)` stores 2 ^ 31, which
exceeds 2 ^ 31 - 1; and `StatBar::from_f32(1.0)` stores
`(1.0 * (0x7FFFFFFF as f32)) as u32 = 2 ^ 31` as well, because the scale
constant rounds up to 2 ^ 31 in binary32. -/
theorem c6_statbar_constructors_exceed_bound :
    ¬ (StatBar.from_u32 (2 ^ 31)).value_u32 ≤ 2 ^ 31 - 1
      ∧ ¬ (StatBar.from_f32 1).value_u32 ≤ 2 ^ 31 - 1
      ∧ (StatBar.from_u32 (2 ^ 31)).value_u32 = 2 ^ 31
      ∧ (StatBar.from_f32 1).value_u32 = 2 ^ 31 := by
  have h1 : (StatBar.from_f32 1).value_u32 = 2 ^ 31 := by
    unfold StatBar.from_f32 clamp01
    norm_num
    rfl
  refine ⟨by decide, ?_, by decide, h1⟩
  rw [h1]
  decide

-- =====================================================================
-- C8: one response, at most one notification, notification iff Success
-- =====================================================================

/-- C8: for every request, `process_request` returns exactly one response
(it is a total function into `Response × Option Notification × Store`), at
most one notification, and the notification is present if and only if the
response is `Success`; read-only requests never notify, and an `Error`
response is never accompanied by a notification.  This holds for any
player-initialisation step, in particular for both the raw-SQL
`init_player_if_not_exists` and the spec's `ensure_exists`. -/
theorem c8_response_notification_discipline
    (init : Store → Nat → DatabaseResult Store) (req : Request) (s : Store) :
    ((process_request init req s).2.1.isSome ↔ (process_request init req s).1 = Response.Success)
      ∧ (is_read_only req = true → (process_request init req s).2.1 = none)
      ∧ (∀ msg, (process_request init req s).1 = Response.Error msg
          → (process_request init req s).2.1 = none) := by
  cases req <;>
    (simp only [process_request, is_read_only]; repeat' split) <;>
      first
        | rfl
        | simp_all [get_stats, set_stats]

/-- C8 witness: the read-only request `GetCreditz 1` on the empty store
under `ensure_exists` yields no notification and a non-`Success` response. -/
theorem c8_response_notification_discipline_witness :
    is_read_only (Request.GetCreditz 1) = true
      ∧ (process_request ensure_exists (Request.GetCreditz 1) []).2.1 = none :=
  ⟨rfl, (c8_response_notification_discipline ensure_exists (Request.GetCreditz 1) []).2.1 rfl⟩

-- =====================================================================
-- C10: notifications carry the persisted value
-- =====================================================================

lemma findRow_updateRow (s : Store) (id : Nat) (row r : StatsRow)
    (h : findRow s id = some r) :
    findRow (updateRow s id row) id = some row := by
  induction s with
  | nil => simp [findRow] at h
  | cons p rest ih =>
    obtain ⟨k, r₀⟩ := p
    by_cases hk : k = id
    · simp [findRow, updateRow, hk]
    · simp only [findRow, updateRow, if_neg hk] at h ⊢
      exact ih h

lemma findRow_append_self (s : Store) (id : Nat) (row : StatsRow)
    (h : findRow s id = none) :
    findRow (s ++ [(id, row)]) id = some row := by
  induction s with
  | nil => simp [findRow]
  | cons p rest ih =>
    obtain ⟨k, r₀⟩ := p
    by_cases hk : k = id
    · simp [findRow, hk] at h
    · simp only [List.cons_append, findRow, if_neg hk] at h ⊢
      exact ih h

lemma ensure_exists_cases (s : Store) (id : Nat) :
    ∃ s₁ r, ensure_exists s id = DatabaseResult.Ok s₁ ∧ findRow s₁ id = some r := by
  unfold ensure_exists
  cases h : findRow s id with
  | some r => exact ⟨s, r, rfl, h⟩
  | none => exact ⟨s ++ [(id, zeroRow)], zeroRow, rfl, findRow_append_self s id zeroRow h⟩

lemma get_stats_of_find (s : Store) (id : Nat) (r : StatsRow)
    (h : findRow s id = some r) :
    get_stats s id = DatabaseResult.Ok
      { citizen_id := id, creditz := fit32 r.creditz
        happiness := StatBar.from_u32 (fit32 r.happiness)
        hunger := StatBar.from_u32 (fit32 r.hunger)
        boredom := StatBar.from_u32 (fit32 r.boredom) } := by
  simp [get_stats, h]

/-- C10: every notification emitted by `process_request` carries as its
new value exactly the value persisted to the store by the accompanying
`set_stats` write (first conjunct, over all requests); moreover
`SetCreditz` notifies the supplied u32, `AddCreditz` / `SubtractCreditz`
notify the post-operation balance (initial balance plus or minus the
amount, for in-range balances), and the three stat setters notify the same
`StatBar::from_f32`-encoded value that was written.  The initialisation
step is the spec's `ensure_exists` contract (see C1). -/
theorem c10_notification_matches_persisted :
    (∀ (req : Request) (s : Store) (n : Notification),
        (process_request ensure_exists req s).2.1 = some n
          → notif_matches_store n (process_request ensure_exists req s).2.2)
      ∧ (∀ (s : Store) (id v : Nat),
          (process_request ensure_exists (Request.SetCreditz id v) s).2.1
            = some (Notification.CreditzChanged id v))
      ∧ (∀ (s : Store) (id : Nat) (r : StatsRow) (a : Nat),
          findRow s id = some r → r.creditz < 2 ^ 32 → r.creditz + a < 2 ^ 32 →
          (process_request ensure_exists (Request.AddCreditz id a) s).2.1
            = some (Notification.CreditzChanged id (r.creditz + a)))
      ∧ (∀ (s : Store) (id : Nat) (r : StatsRow) (a : Nat),
          findRow s id = some r → r.creditz < 2 ^ 32 → a ≤ r.creditz →
          (process_request ensure_exists (Request.SubtractCreditz id a) s).2.1
            = some (Notification.CreditzChanged id (r.creditz - a)))
      ∧ (∀ (s : Store) (id : Nat) (v : ℚ),
          (process_request ensure_exists (Request.SetHappiness id v) s).2.1
            = some (Notification.HappinessChanged id (StatBar.from_f32 v)))
      ∧ (∀ (s : Store) (id : Nat) (v : ℚ),
          (process_request ensure_exists (Request.SetHunger id v) s).2.1
            = some (Notification.HungerChanged id (StatBar.from_f32 v)))
      ∧ (∀ (s : Store) (id : Nat) (v : ℚ),
          (process_request ensure_exists (Request.SetBoredom id v) s).2.1
            = some (Notification.BoredomChanged id (StatBar.from_f32 v))) := by
  have main : ∀ (req : Request) (s : Store) (n : Notification),
      (process_request ensure_exists req s).2.1 = some n
        → notif_matches_store n (process_request ensure_exists req s).2.2 := by
    intro req s n h
    cases req with
    | GetCreditz id =>
      obtain ⟨s₁, r, hens, hr⟩ := ensure_exists_cases s id
      simp [process_request, hens, get_stats_of_find s₁ id r hr] at h
    | GetHappiness id =>
      obtain ⟨s₁, r, hens, hr⟩ := ensure_exists_cases s id
      simp [process_request, hens, get_stats_of_find s₁ id r hr] at h
    | GetHunger id =>
      obtain ⟨s₁, r, hens, hr⟩ := ensure_exists_cases s id
      simp [process_request, hens, get_stats_of_find s₁ id r hr] at h
    | GetBoredom id =>
      obtain ⟨s₁, r, hens, hr⟩ := ensure_exists_cases s id
      simp [process_request, hens, get_stats_of_find s₁ id r hr] at h
    | SetCreditz id v =>
      obtain ⟨s₁, r, hens, hr⟩ := ensure_exists_cases s id
      simp only [process_request, hens, get_stats_of_find s₁ id r hr, set_stats,
        Option.some.injEq] at h ⊢
      subst h
      exact ⟨_, findRow_updateRow s₁ id _ r hr, rfl⟩
    | AddCreditz id a =>
      obtain ⟨s₁, r, hens, hr⟩ := ensure_exists_cases s id
      simp only [process_request, hens, get_stats_of_find s₁ id r hr, set_stats,
        Option.some.injEq] at h ⊢
      subst h
      exact ⟨_, findRow_updateRow s₁ id _ r hr, rfl⟩
    | SubtractCreditz id a =>
      obtain ⟨s₁, r, hens, hr⟩ := ensure_exists_cases s id
      simp only [process_request, hens, get_stats_of_find s₁ id r hr, set_stats] at h ⊢
      by_cases hlt : fit32 r.creditz < a
      · rw [if_pos hlt] at h
        simp at h
      · rw [if_neg hlt] at h ⊢
        simp only [Option.some.injEq] at h
        subst h
        exact ⟨_, findRow_updateRow s₁ id _ r hr, rfl⟩
    | SetHappiness id v =>
      obtain ⟨s₁, r, hens, hr⟩ := ensure_exists_cases s id
      simp only [process_request, hens, get_stats_of_find s₁ id r hr, set_stats,
        Option.some.injEq] at h ⊢
      subst h
      exact ⟨_, findRow_updateRow s₁ id _ r hr, rfl⟩
    | SetHunger id v =>
      obtain ⟨s₁, r, hens, hr⟩ := ensure_exists_cases s id
      simp only [process_request, hens, get_stats_of_find s₁ id r hr, set_stats,
        Option.some.injEq] at h ⊢
      subst h
      exact ⟨_, findRow_updateRow s₁ id _ r hr, rfl⟩
    | SetBoredom id v =>
      obtain ⟨s₁, r, hens, hr⟩ := ensure_exists_cases s id
      simp only [process_request, hens, get_stats_of_find s₁ id r hr, set_stats,
        Option.some.injEq] at h ⊢
      subst h
      exact ⟨_, findRow_updateRow s₁ id _ r hr, rfl⟩
  refine ⟨main, ?_, ?_, ?_, ?_, ?_, ?_⟩
  · intro s id v
    obtain ⟨s₁, r, hens, hr⟩ := ensure_exists_cases s id
    simp [process_request, hens, get_stats_of_find s₁ id r hr, set_stats]
  · intro s id r a hfind hc hca
    have hfit : fit32 r.creditz = r.creditz := if_pos hc
    have hmod : (r.creditz + a) % 2 ^ 32 = r.creditz + a := Nat.mod_eq_of_lt hca
    simp [process_request, ensure_exists, hfind, get_stats_of_find s id r hfind, hfit,
      set_stats, hmod]
    omega
  · intro s id r a hfind hc ha
    have hfit : fit32 r.creditz = r.creditz := if_pos hc
    simp [process_request, ensure_exists, hfind, get_stats_of_find s id r hfind, hfit,
      set_stats, Nat.not_lt.mpr ha]
  · intro s id v
    obtain ⟨s₁, r, hens, hr⟩ := ensure_exists_cases s id
    simp [process_request, hens, get_stats_of_find s₁ id r hr, set_stats]
  · intro s id v
    obtain ⟨s₁, r, hens, hr⟩ := ensure_exists_cases s id
    simp [process_request, hens, get_stats_of_find s₁ id r hr, set_stats]
  · intro s id v
    obtain ⟨s₁, r, hens, hr⟩ := ensure_exists_cases s id
    simp [process_request, hens, get_stats_of_find s₁ id r hr, set_stats]

/-- C10 witness: `SetCreditz(42, 7)` on the empty store emits
`CreditzChanged(42, 7)` and the persisted record holds creditz 7. -/
theorem c10_notification_matches_persisted_witness :
    (process_request ensure_exists (Request.SetCreditz 42 7) []).2.1
        = some (Notification.CreditzChanged 42 7)
      ∧ notif_matches_store (Notification.CreditzChanged 42 7)
          (process_request ensure_exists (Request.SetCreditz 42 7) []).2.2 :=
  ⟨c10_notification_matches_persisted.2.1 [] 42 7,
    c10_notification_matches_persisted.1 (Request.SetCreditz 42 7) []
      (Notification.CreditzChanged 42 7)
      (c10_notification_matches_persisted.2.1 [] 42 7)⟩

-- =====================================================================
-- C7: from_f32 / to_f32 round trip accuracy
-- =====================================================================

lemma f32_round_nat_small {n : Nat} (h : n < 2 ^ 24) : f32_round_nat n = n := by
  have := f32_round_nat_id n 0 h
  simpa using this

lemma clamp01_nonneg (q : ℚ) : 0 ≤ clamp01 q :=
  le_min (le_max_right q 0) zero_le_one

lemma clamp01_le_one (q : ℚ) : clamp01 q ≤ 1 :=
  min_le_right _ _

lemma clamp01_eq_self {q : ℚ} (h0 : 0 ≤ q) (h1 : q ≤ 1) : clamp01 q = q := by
  unfold clamp01
  rw [max_eq_left h0, min_eq_left h1]

lemma clamp01_of_nonpos {q : ℚ} (h : q ≤ 0) : clamp01 q = 0 := by
  unfold clamp01
  rw [max_eq_right h, min_eq_left (by norm_num)]

lemma clamp01_of_one_le {q : ℚ} (h : 1 ≤ q) : clamp01 q = 1 := by
  unfold clamp01
  rw [max_eq_left (le_trans zero_le_one h), min_eq_right h]

/-- The integer stored by `from_f32` on any finite binary32 input is
representable in 24 significant bits, so the `u32 as f32` conversion inside
`to_f32` is exact on it. -/
lemma from_f32_round_id (q : ℚ) (hq : IsF32 q) :
    f32_round_nat (StatBar.from_f32 q).value_u32 = (StatBar.from_f32 q).value_u32 := by
  obtain ⟨m, e, hm, hqe⟩ := hq
  show f32_round_nat (⌊clamp01 q * 2 ^ 31⌋).toNat = (⌊clamp01 q * 2 ^ 31⌋).toNat
  rcases le_or_lt q 0 with hq0 | hq0
  · rw [clamp01_of_nonpos hq0]
    rw [show (0 : ℚ) * 2 ^ 31 = ((0 : ℤ) : ℚ) by norm_num, Int.floor_intCast]
    exact f32_round_nat_small (by norm_num)
  rcases le_or_lt 1 q with hq1 | hq1
  · rw [clamp01_of_one_le hq1]
    rw [show (1 : ℚ) * 2 ^ 31 = ((2 ^ 31 : ℤ) : ℚ) by norm_num, Int.floor_intCast]
    rw [show (2 ^ 31 : ℤ).toNat = 1 * 2 ^ 31 by decide]
    exact f32_round_nat_id 1 31 (by norm_num)
  · rw [clamp01_eq_self (le_of_lt hq0) (le_of_lt hq1)]
    have h2e : (0 : ℚ) < 2 ^ e := zpow_pos (by norm_num) e
    have hm0 : 0 < m := by
      rcases le_or_lt m 0 with h | h
      · exfalso
        have hmq : (m : ℚ) ≤ 0 := by exact_mod_cast h
        nlinarith [hqe ▸ hq0]
      · exact h
    have hmlt : m < 2 ^ 24 := (abs_lt.mp hm).2
    rcases le_or_lt 0 (e + 31) with he | he
    · -- the product q * 2^31 is the integer m * 2^(e+31)
      set j := (e + 31).toNat with hj
      have hje : (j : ℤ) = e + 31 := Int.toNat_of_nonneg he
      have hpow : (2 : ℚ) ^ e * 2 ^ (31 : ℕ) = 2 ^ (j : ℤ) := by
        rw [hje, zpow_add₀ (by norm_num : (2 : ℚ) ≠ 0) e 31]
        norm_num
      have hmm : ((m.toNat : ℕ) : ℚ) = (m : ℚ) := by
        exact_mod_cast Int.toNat_of_nonneg (le_of_lt hm0)
      have hprod : q * 2 ^ (31 : ℕ) = ((m.toNat * 2 ^ j : ℕ) : ℚ) := by
        rw [hqe, mul_assoc, hpow, zpow_natCast]
        push_cast
        rw [hmm]
      rw [hprod, Int.floor_natCast, Int.toNat_natCast]
      exact f32_round_nat_id m.toNat j (by omega)
    · -- q * 2^31 < m < 2^24: the floor is a small integer
      have hlt1 : (2 : ℚ) ^ (e + 31) < 1 := zpow_lt_one_of_neg₀ (by norm_num) he
      have hpow : (2 : ℚ) ^ e * 2 ^ (31 : ℕ) = 2 ^ (e + 31) := by
        rw [zpow_add₀ (by norm_num : (2 : ℚ) ≠ 0) e 31]
        norm_num
      have hprod : q * 2 ^ (31 : ℕ) = (m : ℚ) * 2 ^ (e + 31) := by
        rw [hqe, mul_assoc, hpow]
      have hmq : (0 : ℚ) < m := by exact_mod_cast hm0
      have hsmall : q * 2 ^ (31 : ℕ) < ((2 ^ 24 : ℤ) : ℚ) := by
        rw [hprod]
        have h1 : (m : ℚ) * 2 ^ (e + 31) < m * 1 := mul_lt_mul_of_pos_left hlt1 hmq
        have h2 : (m : ℚ) < ((2 ^ 24 : ℤ) : ℚ) := by exact_mod_cast hmlt
        nlinarith
      have hfl : ⌊q * 2 ^ (31 : ℕ)⌋ < 2 ^ 24 := Int.floor_lt.mpr hsmall
      exact f32_round_nat_small (by omega)

/-- C7: for every finite binary32 input `x`, `from_f32(x).to_f32()` is
within one quantization step 1 / (2 ^ 31 - 1) of `clamp(x, 0, 1)`; in
particular `from_f32(-5.0).to_f32() = 0.0` and
`from_f32(5.0).to_f32() = 1.0`.  (In fact the round trip reproduces
`clamp(x, 0, 1)` to within strictly less than 2 ^ -31, because the binary32
computations inside `from_f32` and `to_f32` are exact apart from the final
truncating cast; see `from_f32_round_id`.) -/
theorem c7_from_f32_to_f32_roundtrip :
    (∀ q : ℚ, IsF32 q →
        |(StatBar.from_f32 q).to_f32 - clamp01 q| ≤ 1 / (2 ^ 31 - 1))
      ∧ (StatBar.from_f32 (-5)).to_f32 = 0
      ∧ (StatBar.from_f32 5).to_f32 = 1 := by
  have key : ∀ q : ℚ, IsF32 q →
      (StatBar.from_f32 q).to_f32 = (⌊clamp01 q * 2 ^ 31⌋ : ℚ) / 2 ^ 31 := by
    intro q hq
    have hy0 : 0 ≤ clamp01 q * 2 ^ 31 := mul_nonneg (clamp01_nonneg q) (by norm_num)
    have hy1 : clamp01 q * 2 ^ 31 ≤ 2 ^ 31 := by
      have := clamp01_le_one q
      nlinarith
    have hv0 : 0 ≤ ⌊clamp01 q * 2 ^ 31⌋ := Int.floor_nonneg.mpr hy0
    show clamp01 ((f32_round_nat (StatBar.from_f32 q).value_u32 : ℚ) / 2 ^ 31) = _
    rw [from_f32_round_id q hq]
    show clamp01 ((((⌊clamp01 q * 2 ^ 31⌋).toNat : ℕ) : ℚ) / 2 ^ 31) = _
    have hcast : (((⌊clamp01 q * 2 ^ 31⌋).toNat : ℕ) : ℚ) = (⌊clamp01 q * 2 ^ 31⌋ : ℚ) := by
      exact_mod_cast Int.toNat_of_nonneg hv0
    rw [hcast]
    refine clamp01_eq_self (by positivity) ?_
    rw [div_le_one (by norm_num)]
    calc (⌊clamp01 q * 2 ^ 31⌋ : ℚ) ≤ clamp01 q * 2 ^ 31 := Int.floor_le _
      _ ≤ 2 ^ 31 := hy1
  refine ⟨?_, ?_, ?_⟩
  · intro q hq
    rw [key q hq]
    have hvy : (⌊clamp01 q * 2 ^ 31⌋ : ℚ) ≤ clamp01 q * 2 ^ 31 := Int.floor_le _
    have hyv : clamp01 q * 2 ^ 31 < ⌊clamp01 q * 2 ^ 31⌋ + 1 := Int.lt_floor_add_one _
    have hdiv : (⌊clamp01 q * 2 ^ 31⌋ : ℚ) / 2 ^ 31 ≤ clamp01 q := by
      rw [div_le_iff₀ (by norm_num : (0 : ℚ) < 2 ^ 31)]
      exact hvy
    rw [abs_sub_comm, abs_of_nonneg (sub_nonneg.mpr hdiv),
      show clamp01 q - (⌊clamp01 q * 2 ^ 31⌋ : ℚ) / 2 ^ 31
        = (clamp01 q * 2 ^ 31 - ⌊clamp01 q * 2 ^ 31⌋) / 2 ^ 31 by ring]
    rw [div_le_div_iff₀ (by norm_num) (by norm_num)]
    nlinarith
  · have hq : IsF32 (-5 : ℚ) := ⟨-5, 0, by norm_num, by norm_num⟩
    rw [key _ hq, clamp01_of_nonpos (by norm_num)]
    norm_num
  · have hq : IsF32 (5 : ℚ) := ⟨5, 0, by norm_num, by norm_num⟩
    rw [key _ hq, clamp01_of_one_le (by norm_num)]
    rw [show (1 : ℚ) * 2 ^ 31 = ((2 ^ 31 : ℤ) : ℚ) by norm_num, Int.floor_intCast]
    norm_num

/-- C7 witness: the round-trip bound instantiated at the finite binary32
value 1. -/
theorem c7_from_f32_to_f32_roundtrip_witness :
    IsF32 (1 : ℚ)
      ∧ |(StatBar.from_f32 1).to_f32 - clamp01 1| ≤ 1 / (2 ^ 31 - 1) :=
  ⟨⟨1, 0, by norm_num, by norm_num⟩,
    c7_from_f32_to_f32_roundtrip.1 1 ⟨1, 0, by norm_num, by norm_num⟩⟩
